import Mathlib

/-!
Verification of the eirenewatch task-supervision core.

This file gives a shallow embedding of the task-lifecycle engine found in
the repository's `subscribe` module (`runTask`, `TaskManager`,
`ManagerPool`) and of `defineConfigWatcher`, and proves properties of the
embedding.

Modelling conventions:
* JavaScript numbers that hold millisecond delays, attempt counters and
  retry parameters are modelled as `Int` (the source only ever works with
  integral values here); the `failedAttempts` counter starts at `-1`
  exactly as in the source.
* The asynchronous retry loop is modelled as a fuel-indexed recursive
  function that threads a logical clock (milliseconds) and emits a trace
  of events (backoff sleeps and `launch` invocations).  The outcome of
  each `launch` invocation, the wall-clock duration of each invocation,
  and the instant at which the parent abort signal fires are supplied by
  an environment (`TaskEnv`).  The abort signal is checked exactly where
  the source checks it: at the top of each loop iteration; the backoff
  sleep `await setTimeout(delay)` is modelled as always consuming its full
  delay because the source does not pass an abort signal to it.
* The `TaskManager` closure state (`outerTeardownInitiated`,
  `outerActiveTask`, `outerFirstEvent`) is modelled as an explicit record,
  and the synchronous phase of `updateConfig` (everything up to the first
  `await` or early `return`) as a state transition.
* Promises and abort controllers are modelled by `resolved` / `aborted`
  booleans on the active-task record.
-/

/-- Outcome of one `template.launch` invocation, as observed by the
`try`/`catch` in `runTask`: it either returns normally, throws an error
whose `name` is `'AbortError'`, or throws any other error. -/
inductive LaunchOutcome
  | success
  | abortError
  | otherError
deriving DecidableEq, Repr

/-- The `retry` field of a task template (`Retry` in `mod/types.ts`):
`factor`, `maxTimeout`, `minTimeout` are optional, `retries` is required. -/
structure Retry where
  factor : Option Int
  maxTimeout : Option Int
  minTimeout : Option Int
  retries : Int
deriving DecidableEq, Repr

/-- The fields of `TaskTemplate` that drive the control flow of the task
lifecycle (`initialRun`, `interruptible`, `persistent`, `retry`).  The
remaining fields (`name`, `id`, `launch`, `teardown`, `cwd`,
`throttleOutput`, `abortSignal`) are modelled through `TaskEnv` and the
event trace. -/
structure TaskTemplate where
  initialRun : Bool
  interruptible : Bool
  persistent : Bool
  retry : Retry
deriving DecidableEq, Repr

/-- Environment of one task run: the outcome and duration of the `k`-th
`launch` invocation, and the instant (on the logical millisecond clock) at
which the task's abort signal fires, if ever. -/
structure TaskEnv where
  outcomes : Nat → LaunchOutcome
  durations : Nat → Int
  abortTime : Option Int

/-- The value of `abortController.signal.aborted` at clock instant `t`. -/
def isAborted (env : TaskEnv) (t : Int) : Bool :=
  match env.abortTime with
  | none => false
  | some a => decide (a ≤ t)

/-- The backoff delay computed by `runTask` when `failedAttempts > 0`:
`Math.min(failedAttempts * retryFactor * minTimeout,
template.retry.maxTimeout ?? maxTimeout)` with
`retryFactor = factor ?? 2`, `minTimeout = minTimeout ?? 1000`,
`maxTimeout = maxTimeout ?? 30000`. -/
def retryDelay (r : Retry) (failedAttempts : Int) : Int :=
  let retryFactor := r.factor.getD 2
  let minTimeout := r.minTimeout.getD 1000
  let maxTimeout := r.maxTimeout.getD 30000
  min (failedAttempts * retryFactor * minTimeout) (r.maxTimeout.getD maxTimeout)

/-- Events emitted by a task run: the initial-run debug log, a backoff
sleep (with its start instant and full delay), and a `launch` invocation
(with its start instant and the `attempt` and `first` fields of its
context). -/
inductive Event
  | initialRunLog
  | sleep (start delay : Int)
  | launch (time attempt : Int) (first : Bool)
deriving DecidableEq, Repr

/-- How a task run ends: normal return after success (`ok`), return after
observing the abort signal or an `AbortError` (`aborted`), re-throw of the
task error once retries are exhausted (`taskError`), one of the two
`'Expected retries left to be greater than or equal to 0'` throws
(`internalError`), or fuel exhaustion of the model (`fuelOut`, standing
for a still-running loop). -/
inductive RunResult
  | ok
  | aborted
  | taskError
  | internalError
  | fuelOut
deriving DecidableEq, Repr

/-- The `while (true)` loop of `runTask`, one fuel unit per iteration.
Arguments after the fuel: the current `failedAttempts` value (as it is at
the top of the iteration, before the `failedAttempts++`), the number of
`launch` invocations made so far (indexing into the environment), and the
clock. -/
def runTaskLoop (env : TaskEnv) (persistent : Bool) (retry : Retry)
    (firstEvent : Bool) :
    Nat → Int → Nat → Int → List Event × RunResult
  | 0, _, _, _ => ([], .fuelOut)
  | fuel + 1, failedAttempts0, launchCount, t0 =>
    if isAborted env t0 then ([], .aborted)
    else
      let failedAttempts := failedAttempts0 + 1
      let delay := retryDelay retry failedAttempts
      let sleepEvents : List Event :=
        if 0 < failedAttempts then [.sleep t0 delay] else []
      let t1 := if 0 < failedAttempts then t0 + delay else t0
      let t2 := t1 + env.durations launchCount
      let launchEvent : Event := .launch t1 failedAttempts firstEvent
      match env.outcomes launchCount with
      | .success =>
        if persistent then
          let r := runTaskLoop env persistent retry firstEvent fuel 0
            (launchCount + 1) t2
          (sleepEvents ++ launchEvent :: r.1, r.2)
        else
          (sleepEvents ++ [launchEvent], .ok)
      | .abortError => (sleepEvents ++ [launchEvent], .aborted)
      | .otherError =>
        if persistent then
          let r := runTaskLoop env persistent retry firstEvent fuel
            failedAttempts (launchCount + 1) t2
          (sleepEvents ++ launchEvent :: r.1, r.2)
        else
          let retriesLeft := retry.retries - failedAttempts
          if retriesLeft < 0 then (sleepEvents ++ [launchEvent], .internalError)
          else if retriesLeft = 0 then (sleepEvents ++ [launchEvent], .taskError)
          else if 0 < retriesLeft then
            let r := runTaskLoop env persistent retry firstEvent fuel
              failedAttempts (launchCount + 1) t2
            (sleepEvents ++ launchEvent :: r.1, r.2)
          else (sleepEvents ++ [launchEvent], .internalError)

/-- The function `runTask`: emits the initial-run debug log when
`template.initialRun && firstEvent`, then runs the loop with
`failedAttempts = -1`, no launches made, clock 0. -/
def runTask (env : TaskEnv) (template : TaskTemplate) (firstEvent : Bool)
    (fuel : Nat) : List Event × RunResult :=
  let pre : List Event :=
    if template.initialRun && firstEvent then [.initialRunLog] else []
  let r := runTaskLoop env template.persistent template.retry firstEvent fuel
    (-1) 0 0
  (pre ++ r.1, r.2)

/-- Untimed view of an event: launches keep their `attempt` and `first`
context fields, sleeps keep their delay, the debug log is dropped. -/
inductive EventK
  | launchK (attempt : Int) (first : Bool)
  | sleepK (delay : Int)
deriving DecidableEq, Repr

/-- Erase timestamps and log events from a trace. -/
def kinds (es : List Event) : List EventK :=
  es.filterMap fun e =>
    match e with
    | .initialRunLog => none
    | .sleep _ d => some (.sleepK d)
    | .launch _ a f => some (.launchK a f)

/-- The `(attempt, first)` context pairs of the launch invocations of an
untimed trace, in order. -/
def launchPairs (es : List EventK) : List (Int × Bool) :=
  es.filterMap fun e =>
    match e with
    | .launchK a f => some (a, f)
    | .sleepK _ => none

/-- The delays of the backoff sleeps of an untimed trace, in order. -/
def sleepDelays (es : List EventK) : List Int :=
  es.filterMap fun e =>
    match e with
    | .launchK _ _ => none
    | .sleepK d => some d

/-- Environment with every launch failing with a non-cancellation error,
zero launch durations, and no abort. -/
def allFailEnv : TaskEnv :=
  { outcomes := fun _ => .otherError
    durations := fun _ => 0
    abortTime := none }

/-- Environment with every launch succeeding, zero durations, no abort. -/
def allOkEnv : TaskEnv :=
  { outcomes := fun _ => .success
    durations := fun _ => 0
    abortTime := none }

example :
    runTask allFailEnv
      ⟨true, true, false, ⟨none, none, none, 1⟩⟩ true 5 =
    ([.initialRunLog, .launch 0 0 true, .sleep 0 2000, .launch 2000 1 true],
      .taskError) := by decide

example :
    runTask allOkEnv
      ⟨true, true, true, ⟨none, none, none, 3⟩⟩ true 2 =
    ([.initialRunLog, .launch 0 0 true, .sleep 0 2000, .launch 2000 1 true],
      .fuelOut) := by decide

/-- Pointwise-equal functions map lists equally. -/
theorem map_ext_fun {α β : Type} (f g : α → β) (l : List α)
    (h : ∀ x, f x = g x) : l.map f = l.map g := by
  induction l with
  | nil => rfl
  | cons x xs ih => simp [h, ih]

/-- The map `kinds` distributes over append. -/
theorem kinds_append (a b : List Event) : kinds (a ++ b) = kinds a ++ kinds b :=
  List.filterMap_append a b _

/-- The source's doubly-defaulted maximum
(`template.retry.maxTimeout ?? maxTimeout` where `maxTimeout` is itself
`template.retry.maxTimeout ?? 30000`) collapses, so the delay is
`min(failedAttempts * factor * minTimeout, maxTimeout)` with defaults
2, 1000, 30000. -/
theorem retryDelay_eq (r : Retry) (j : Int) :
    retryDelay r j =
      min (j * r.factor.getD 2 * r.minTimeout.getD 1000)
        (r.maxTimeout.getD 30000) := by
  cases h : r.maxTimeout <;> simp [retryDelay, h]

/-- The untimed tail of a failing, non-persistent run entered with
`failedAttempts = a ≥ 0`: `n` further attempts `a+1, …, a+n`, each
preceded by its backoff sleep. -/
def expectedFailTail (r : Retry) (first : Bool) : Int → Nat → List EventK
  | _, 0 => []
  | a, n + 1 =>
    .sleepK (retryDelay r (a + 1)) :: .launchK (a + 1) first ::
      expectedFailTail r first (a + 1) n

theorem launchPairs_expectedFailTail (r : Retry) (first : Bool) :
    ∀ (n : ℕ) (a : Int),
      launchPairs (expectedFailTail r first a n) =
        (List.range n).map fun (k : Nat) => (a + 1 + (k : Int), first) := by
  intro n
  induction n with
  | zero => intro a; rfl
  | succ n ih =>
    intro a
    have h1 : launchPairs (expectedFailTail r first a (n + 1)) =
        (a + 1, first) :: launchPairs (expectedFailTail r first (a + 1) n) := by
      simp [launchPairs, expectedFailTail, List.filterMap_cons]
    rw [h1, ih (a + 1), List.range_succ_eq_map, List.map_cons, List.map_map]
    refine congrArg₂ _ (by norm_num) ?_
    refine map_ext_fun _ _ _ fun k => ?_
    simp only [Function.comp_apply]
    congr 1
    push_cast
    ring

theorem sleepDelays_expectedFailTail (r : Retry) (first : Bool) :
    ∀ (n : ℕ) (a : Int),
      sleepDelays (expectedFailTail r first a n) =
        (List.range n).map fun (k : Nat) => retryDelay r (a + 1 + (k : Int)) := by
  intro n
  induction n with
  | zero => intro a; rfl
  | succ n ih =>
    intro a
    have h1 : sleepDelays (expectedFailTail r first a (n + 1)) =
        retryDelay r (a + 1) :: sleepDelays (expectedFailTail r first (a + 1) n) := by
      simp [sleepDelays, expectedFailTail, List.filterMap_cons]
    rw [h1, ih (a + 1), List.range_succ_eq_map, List.map_cons, List.map_map]
    refine congrArg₂ _ (by norm_num) ?_
    refine map_ext_fun _ _ _ fun k => ?_
    simp only [Function.comp_apply]
    congr 1
    push_cast
    ring

/-- Characterization of the retry loop when every launch fails with a
non-cancellation error, the task is not persistent, and no abort ever
fires: entered with `failedAttempts = a ≥ 0` and `retries = a + 1 + n`
and enough fuel, it performs attempts `a+1, …, a+1+n` (each preceded by a
backoff sleep) and re-throws the final error. -/
theorem runTaskLoop_allFail (env : TaskEnv) (retry : Retry) (first : Bool)
    (hout : ∀ k, env.outcomes k = .otherError)
    (habort : env.abortTime = none) :
    ∀ (n fuel : ℕ) (a : Int) (lc : ℕ) (t : Int),
      0 ≤ a → retry.retries = a + 1 + (n : Int) → n + 1 ≤ fuel →
      kinds (runTaskLoop env false retry first fuel a lc t).1 =
          expectedFailTail retry first a (n + 1) ∧
        (runTaskLoop env false retry first fuel a lc t).2 = .taskError := by
  intro n
  induction n with
  | zero =>
    intro fuel a lc t ha hr hf
    obtain ⟨f, rfl⟩ : ∃ f, fuel = f + 1 := ⟨fuel - 1, by omega⟩
    have hab : isAborted env t = false := by simp [isAborted, habort]
    have hpos : (0 : Int) < a + 1 := by omega
    have hleft : retry.retries - (a + 1) = 0 := by omega
    simp only [runTaskLoop, hab, Bool.false_eq_true, if_false, hout lc,
      if_pos hpos, hleft, if_pos rfl]
    simp [kinds, expectedFailTail, hleft]
  | succ n ih =>
    intro fuel a lc t ha hr hf
    obtain ⟨f, rfl⟩ : ∃ f, fuel = f + 1 := ⟨fuel - 1, by omega⟩
    have hab : isAborted env t = false := by simp [isAborted, habort]
    have hpos : (0 : Int) < a + 1 := by omega
    have hleft : retry.retries - (a + 1) = (n : Int) + 1 := by
      push_cast at hr ⊢; omega
    have h1 : ¬retry.retries - (a + 1) < 0 := by omega
    have h2 : ¬retry.retries - (a + 1) = 0 := by omega
    have h3 : 0 < retry.retries - (a + 1) := by omega
    have hrec := ih f (a + 1) (lc + 1)
      (t + retryDelay retry (a + 1) + env.durations lc)
      (by omega) (by push_cast at hr ⊢; omega) (by omega)
    simp only [runTaskLoop, hab, Bool.false_eq_true, if_false, hout lc,
      if_pos hpos, if_neg h1, if_neg h2, if_pos h3]
    simp only [kinds, List.filterMap_append, List.filterMap_cons] at hrec ⊢
    simp [expectedFailTail, hrec.1, hrec.2]

/-- The log prefix of `runTask` contributes nothing to the untimed view. -/
theorem kinds_logGuard (c : Bool) :
    kinds (if c then [Event.initialRunLog] else []) = [] := by
  split <;> rfl

/-- C3 (confirmed): for a non-persistent template with `retries = R`,
when every `launch` invocation fails with a non-cancellation error and no
abort fires, `launch` is invoked exactly `R + 1` times (attempts
`0, …, R`, all carrying the same `first` flag), the `k`-th inter-attempt
delay (`k ≥ 1`) equals `min(k * factor * minTimeout, maxTimeout)` with
defaults 2, 1000, 30000, and the run ends by re-throwing the task error;
for `R = 0` this specializes to exactly one launch and no sleep. -/
theorem retry_arithmetic (env : TaskEnv) (template : TaskTemplate)
    (first : Bool) (R fuel : ℕ)
    (hpers : template.persistent = false)
    (habort : env.abortTime = none)
    (hout : ∀ k, env.outcomes k = LaunchOutcome.otherError)
    (hR : template.retry.retries = (R : Int))
    (hfuel : R + 1 ≤ fuel) :
    (launchPairs (kinds (runTask env template first fuel).1)).length = R + 1 ∧
    launchPairs (kinds (runTask env template first fuel).1) =
      (List.range (R + 1)).map (fun (k : Nat) => ((k : Int), first)) ∧
    sleepDelays (kinds (runTask env template first fuel).1) =
      (List.range R).map (fun (k : Nat) =>
        min (((k : Int) + 1) * template.retry.factor.getD 2 *
          template.retry.minTimeout.getD 1000)
          (template.retry.maxTimeout.getD 30000)) ∧
    (runTask env template first fuel).2 = RunResult.taskError := by
  obtain ⟨f, rfl⟩ : ∃ f, fuel = f + 1 := ⟨fuel - 1, by omega⟩
  have hab : isAborted env 0 = false := by simp [isAborted, habort]
  have hnpos : ¬(0 : Int) < -1 + 1 := by omega
  have hmain :
      kinds (runTask env template first (f + 1)).1 =
          EventK.launchK 0 first :: expectedFailTail template.retry first 0 R ∧
        (runTask env template first (f + 1)).2 = RunResult.taskError := by
    rw [runTask]
    simp only [kinds_append, kinds_logGuard, List.nil_append, hpers]
    rw [runTaskLoop]
    simp only [hab, Bool.false_eq_true, if_false, hout 0, hnpos]
    cases R with
    | zero =>
      have hleft : template.retry.retries - (-1 + 1) = 0 := by
        rw [hR]; omega
      simp only [hleft]
      norm_num [kinds, expectedFailTail]
      simp [List.filterMap_cons]
    | succ S =>
      have h1 : ¬template.retry.retries - (-1 + 1) < 0 := by rw [hR]; omega
      have h2 : ¬template.retry.retries - (-1 + 1) = 0 := by
        rw [hR]; push_cast; omega
      have h3 : 0 < template.retry.retries - (-1 + 1) := by
        rw [hR]; push_cast; omega
      simp only [if_neg h1, if_neg h2, if_pos h3]
      norm_num
      have hrec := runTaskLoop_allFail env template.retry first hout habort S f
        0 1 (env.durations 0) (by omega) (by rw [hR]; push_cast; omega)
        (by omega)
      simp only [kinds] at hrec
      exact ⟨by simp [kinds, List.filterMap_cons, hrec.1], hrec.2⟩
  refine ⟨?_, ?_, ?_, hmain.2⟩
  · rw [hmain.1]
    have h1 : launchPairs
        (EventK.launchK 0 first :: expectedFailTail template.retry first 0 R) =
        ((0 : Int), first) :: launchPairs (expectedFailTail template.retry first 0 R) := by
      simp [launchPairs, List.filterMap_cons]
    rw [h1, launchPairs_expectedFailTail]
    simp
  · rw [hmain.1]
    have h1 : launchPairs
        (EventK.launchK 0 first :: expectedFailTail template.retry first 0 R) =
        ((0 : Int), first) :: launchPairs (expectedFailTail template.retry first 0 R) := by
      simp [launchPairs, List.filterMap_cons]
    rw [h1, launchPairs_expectedFailTail, List.range_succ_eq_map,
      List.map_cons, List.map_map]
    refine congrArg₂ _ (by norm_num) ?_
    refine map_ext_fun _ _ _ fun k => ?_
    simp only [Function.comp_apply]
    congr 1
    push_cast
    ring
  · rw [hmain.1]
    have h1 : sleepDelays
        (EventK.launchK 0 first :: expectedFailTail template.retry first 0 R) =
        sleepDelays (expectedFailTail template.retry first 0 R) := by
      simp [sleepDelays, List.filterMap_cons]
    rw [h1, sleepDelays_expectedFailTail]
    refine map_ext_fun _ _ _ fun k => ?_
    rw [retryDelay_eq]
    congr 1
    ring

/-- Witness for `retry_arithmetic` at `R = 2`, `fuel = 3`, every launch
failing, defaults for the retry parameters. -/
theorem retry_arithmetic_witness :
    ((⟨true, true, false, ⟨none, none, none, 2⟩⟩ : TaskTemplate).persistent = false ∧
      allFailEnv.abortTime = none ∧
      (∀ k, allFailEnv.outcomes k = LaunchOutcome.otherError) ∧
      (⟨true, true, false, ⟨none, none, none, 2⟩⟩ : TaskTemplate).retry.retries = ((2 : ℕ) : Int) ∧
      2 + 1 ≤ 3) ∧
    (launchPairs (kinds (runTask allFailEnv
        ⟨true, true, false, ⟨none, none, none, 2⟩⟩ true 3).1)).length = 2 + 1 ∧
    (runTask allFailEnv ⟨true, true, false, ⟨none, none, none, 2⟩⟩ true 3).2 =
      RunResult.taskError :=
  ⟨⟨rfl, rfl, fun _ => rfl, rfl, by omega⟩,
    (retry_arithmetic allFailEnv ⟨true, true, false, ⟨none, none, none, 2⟩⟩
      true 2 3 rfl rfl (fun _ => rfl) rfl (by omega)).1,
    (retry_arithmetic allFailEnv ⟨true, true, false, ⟨none, none, none, 2⟩⟩
      true 2 3 rfl rfl (fun _ => rfl) rfl (by omega)).2.2.2⟩

/-- Loop invariant behind the `retriesLeft` guards: entered with
`failedAttempts + 1 ≤ retries` (in particular at the start, where
`failedAttempts = -1` and `0 ≤ retries`), a non-persistent run never
reaches either `'Expected retries left to be greater than or equal to 0'`
throw. -/
theorem runTaskLoop_no_internal (env : TaskEnv) (retry : Retry)
    (first : Bool) :
    ∀ (fuel : ℕ) (a : Int) (lc : ℕ) (t : Int), a + 1 ≤ retry.retries →
      (runTaskLoop env false retry first fuel a lc t).2 ≠
        RunResult.internalError := by
  intro fuel
  induction fuel with
  | zero => intro a lc t h; simp [runTaskLoop]
  | succ f ih =>
    intro a lc t h
    rw [runTaskLoop]
    by_cases hab : isAborted env t
    · simp [hab]
    · simp only [hab, Bool.false_eq_true, if_false]
      cases houtc : env.outcomes lc with
      | success => simp [houtc]
      | abortError => simp [houtc]
      | otherError =>
        have h1 : ¬retry.retries - (a + 1) < 0 := by omega
        simp only [houtc, Bool.false_eq_true, if_false, if_neg h1]
        by_cases h2 : retry.retries - (a + 1) = 0
        · simp [h2]
        · have h3 : 0 < retry.retries - (a + 1) := by omega
          simp only [if_neg h2, if_pos h3]
          exact ih (a + 1) (lc + 1) _ (by omega)

/-- C9 (confirmed): for a non-persistent template with `retries ≥ 0`,
`retriesLeft = retries - failedAttempts` is never negative when computed,
so neither `'Expected retries left to be greater than or equal to 0'`
branch is ever taken: no run of `runTask` ends in `internalError`,
whatever the launch outcomes, durations and abort instant. -/
theorem retries_left_guards_unreachable (env : TaskEnv)
    (template : TaskTemplate) (first : Bool) (fuel : ℕ)
    (hpers : template.persistent = false)
    (hretr : 0 ≤ template.retry.retries) :
    (runTask env template first fuel).2 ≠ RunResult.internalError := by
  rw [runTask]
  simp only [hpers]
  exact runTaskLoop_no_internal env template.retry first fuel (-1) 0 0
    (by omega)

/-- Witness for `retries_left_guards_unreachable` with `retries = 1`,
every launch failing, fuel 3. -/
theorem retries_left_guards_unreachable_witness :
    ((⟨true, true, false, ⟨none, none, none, 1⟩⟩ : TaskTemplate).persistent = false ∧
      (0 : Int) ≤ (⟨true, true, false, ⟨none, none, none, 1⟩⟩ : TaskTemplate).retry.retries) ∧
    (runTask allFailEnv ⟨true, true, false, ⟨none, none, none, 1⟩⟩ true 3).2 ≠
      RunResult.internalError :=
  ⟨⟨rfl, by norm_num⟩,
    retries_left_guards_unreachable allFailEnv
      ⟨true, true, false, ⟨none, none, none, 1⟩⟩ true 3 rfl (by norm_num)⟩

/-- C6 amended (the claim as written is refuted by
`backoff_sleep_ignores_abort_cx`): the inter-attempt backoff wait is NOT
cancellation-aware.  Whenever an iteration of the retry loop enters the
backoff branch (`failedAttempts + 1 > 0`) and the task was not yet
aborted at the top of the iteration, the emitted sleep lasts the full
computed delay and is immediately followed by a `launch` invocation —
for every abort instant, including one that falls strictly inside the
sleep interval. -/
theorem backoff_sleep_full_delay (env : TaskEnv) (persistent : Bool)
    (retry : Retry) (first : Bool) (fuel : ℕ) (a : Int) (lc : ℕ) (t : Int)
    (hab : isAborted env t = false) (hpos : (0 : Int) < a + 1) :
    ((runTaskLoop env persistent retry first (fuel + 1) a lc t).1).take 2 =
      [Event.sleep t (retryDelay retry (a + 1)),
        Event.launch (t + retryDelay retry (a + 1)) (a + 1) first] := by
  rw [runTaskLoop]
  simp only [hab, Bool.false_eq_true, if_false, if_pos hpos]
  cases houtc : env.outcomes lc <;> simp only [houtc] <;> (repeat' split) <;>
    simp_all

/-- Witness for `backoff_sleep_full_delay`: entering the loop with
`failedAttempts = 0` (one failure already recorded) under `allFailEnv`. -/
theorem backoff_sleep_full_delay_witness :
    (isAborted allFailEnv 0 = false ∧ (0 : Int) < 0 + 1) ∧
    ((runTaskLoop allFailEnv false ⟨none, none, none, 5⟩ true (0 + 1) 0 1 0).1).take 2 =
      [Event.sleep 0 (retryDelay ⟨none, none, none, 5⟩ (0 + 1)),
        Event.launch (0 + retryDelay ⟨none, none, none, 5⟩ (0 + 1)) (0 + 1) true] :=
  ⟨⟨rfl, by norm_num⟩,
    backoff_sleep_full_delay allFailEnv false ⟨none, none, none, 5⟩ true 0 0 1 0
      rfl (by norm_num)⟩

/-- Environment for the C6 counterexample: the first launch fails, the
abort signal fires at t = 1000, i.e. strictly inside the backoff sleep
`[0, 2000)` that follows the failure. -/
def abortMidSleepEnv : TaskEnv :=
  { outcomes := fun k => if k = 0 then .otherError else .success
    durations := fun _ => 0
    abortTime := some 1000 }

/-- C6 counterexample: cancellation fires at t = 1000, strictly inside
the backoff sleep `[0, 2000)`, yet the sleep consumes its full 2000 ms
delay and the loop invokes `launch` again (at t = 2000) — the source's
`await setTimeout(delay)` is given no abort signal, so the wait is not
cancellation-aware and does not return early. -/
theorem backoff_sleep_ignores_abort_cx :
    runTask abortMidSleepEnv ⟨true, true, false, ⟨none, none, none, 1⟩⟩ false 2 =
      ([Event.launch 0 0 false, Event.sleep 0 2000, Event.launch 2000 1 false],
        RunResult.ok) ∧
    abortMidSleepEnv.abortTime = some 1000 ∧
    (0 : Int) < 1000 ∧ (1000 : Int) < 0 + 2000 := by decide

/-- Untimed trace of a persistent all-success run entered with
`failedAttempts = 0` (the state right after a successful launch): each of
the `n` remaining cycles is a backoff sleep of delay `d` followed by a
re-launch carrying `attempt = 1`. -/
def persistCycle (d : Int) (first : Bool) : ℕ → List EventK
  | 0 => []
  | n + 1 => .sleepK d :: .launchK 1 first :: persistCycle d first n

/-- Characterization of the persistent all-success loop from the
post-success state `failedAttempts = 0`. -/
theorem runTaskLoop_persist_ok (env : TaskEnv) (retry : Retry)
    (first : Bool) (hout : ∀ k, env.outcomes k = LaunchOutcome.success)
    (habort : env.abortTime = none) :
    ∀ (fuel : ℕ) (lc : ℕ) (t : Int),
      kinds (runTaskLoop env true retry first fuel 0 lc t).1 =
          persistCycle (retryDelay retry 1) first fuel ∧
        (runTaskLoop env true retry first fuel 0 lc t).2 =
          RunResult.fuelOut := by
  intro fuel
  induction fuel with
  | zero => intro lc t; simp [runTaskLoop, persistCycle, kinds]
  | succ f ih =>
    intro lc t
    have hab : isAborted env t = false := by simp [isAborted, habort]
    have hpos : (0 : Int) < 0 + 1 := by norm_num
    rw [runTaskLoop]
    simp only [hab, Bool.false_eq_true, if_false, hout lc, if_pos hpos,
      if_pos rfl]
    have hrec := ih (lc + 1) (t + retryDelay retry (0 + 1) + env.durations lc)
    have h01 : (0 : Int) + 1 = 1 := by norm_num
    rw [h01] at hrec
    constructor
    · simp only [kinds, List.filterMap_cons, List.filterMap_append] at hrec ⊢
      simp [persistCycle, hrec.1]
    · simpa using hrec.2

/-- C2 amended (the claim as written is refuted by
`persistent_relaunch_not_immediate_cx`): when a persistent launch returns
normally, the loop does NOT re-invoke `launch` immediately.  The source
resets `failedAttempts` to 0 and the loop top increments it to 1, which
triggers the backoff branch: every re-launch after a success is preceded
by a sleep of `min(factor * minTimeout, maxTimeout)` (defaults:
`min(2 * 1000, 30000) = 2000` ms), and each such re-launch carries
`attempt = 1`. -/
theorem persistent_relaunch_after_backoff (env : TaskEnv)
    (template : TaskTemplate) (first : Bool) (n : ℕ)
    (hpers : template.persistent = true)
    (habort : env.abortTime = none)
    (hout : ∀ k, env.outcomes k = LaunchOutcome.success) :
    kinds (runTask env template first (n + 1)).1 =
        EventK.launchK 0 first ::
          persistCycle
            (min (template.retry.factor.getD 2 *
              template.retry.minTimeout.getD 1000)
              (template.retry.maxTimeout.getD 30000)) first n ∧
      (runTask env template first (n + 1)).2 = RunResult.fuelOut := by
  have hab : isAborted env 0 = false := by simp [isAborted, habort]
  have hnpos : ¬(0 : Int) < -1 + 1 := by omega
  have hd : retryDelay template.retry 1 =
      min (template.retry.factor.getD 2 * template.retry.minTimeout.getD 1000)
        (template.retry.maxTimeout.getD 30000) := by
    rw [retryDelay_eq]; norm_num
  rw [runTask]
  simp only [kinds_append, kinds_logGuard, List.nil_append, hpers]
  rw [runTaskLoop]
  simp only [hab, Bool.false_eq_true, if_false, hout 0, hnpos, if_pos rfl]
  have hrec := runTaskLoop_persist_ok env template.retry first hout habort n 1
    (0 + env.durations 0)
  norm_num at hrec
  constructor
  · simp only [kinds, List.filterMap_cons, List.filterMap_nil,
      List.nil_append] at hrec ⊢
    norm_num
    rw [← hd]
    simp [hrec.1]
  · simpa using hrec.2

/-- Witness for `persistent_relaunch_after_backoff` with the default
retry parameters and two loop iterations. -/
theorem persistent_relaunch_after_backoff_witness :
    ((⟨true, true, true, ⟨none, none, none, 3⟩⟩ : TaskTemplate).persistent = true ∧
      allOkEnv.abortTime = none ∧
      (∀ k, allOkEnv.outcomes k = LaunchOutcome.success)) ∧
    kinds (runTask allOkEnv ⟨true, true, true, ⟨none, none, none, 3⟩⟩ true 2).1 =
      EventK.launchK 0 true :: persistCycle (min (2 * 1000) 30000) true 1 :=
  ⟨⟨rfl, rfl, fun _ => rfl⟩,
    (persistent_relaunch_after_backoff allOkEnv
      ⟨true, true, true, ⟨none, none, none, 3⟩⟩ true 1 rfl rfl
      (fun _ => rfl)).1⟩

/-- C2 counterexample: a persistent template whose launches all succeed.
Between the first (successful) launch and the second launch the trace
contains a backoff sleep of 2000 ms (`min(1 * 2 * 1000, 30000)` with the
default retry parameters), so the re-launch after a successful persistent
launch is not immediate. -/
theorem persistent_relaunch_not_immediate_cx :
    kinds (runTask allOkEnv ⟨true, true, true, ⟨none, none, none, 3⟩⟩ true 2).1 =
      [EventK.launchK 0 true, EventK.sleepK 2000, EventK.launchK 1 true] := by
  decide

/-- C7 amended (the claim as written is refuted by
`initialRun_false_first_event_launches_cx`): `template.initialRun` does
NOT gate the first run.  Its only use in `runTask` is the guard of the
initial-run debug log, so the untimed behavior (launches, sleeps,
result) is identical for `initialRun = true` and `initialRun = false`;
and whenever the task is not already aborted, the first event's run
starts with a `launch` carrying `attempt = 0` and `first = true`,
whatever `initialRun` is. -/
theorem initialRun_only_gates_log (env : TaskEnv) (template : TaskTemplate)
    (b first : Bool) (fuel : ℕ) (hab : isAborted env 0 = false) :
    (kinds (runTask env { template with initialRun := b } first fuel).1 =
        kinds (runTask env template first fuel).1 ∧
      (runTask env { template with initialRun := b } first fuel).2 =
        (runTask env template first fuel).2) ∧
    (kinds (runTask env template true (fuel + 1)).1).head? =
      some (EventK.launchK 0 true) := by
  refine ⟨⟨?_, rfl⟩, ?_⟩
  · rw [runTask, runTask]
    simp only [kinds_append, kinds_logGuard, List.nil_append]
  · rw [runTask]
    simp only [kinds_append, kinds_logGuard, List.nil_append]
    rw [runTaskLoop]
    have hnpos : ¬(0 : Int) < -1 + 1 := by omega
    simp only [hab, Bool.false_eq_true, if_false, hnpos]
    cases houtc : env.outcomes 0 <;> simp only [houtc] <;> (repeat' split) <;>
      simp [kinds, List.filterMap_cons]

/-- Witness for `initialRun_only_gates_log`. -/
theorem initialRun_only_gates_log_witness :
    isAborted allOkEnv 0 = false ∧
    (kinds (runTask allOkEnv ⟨true, true, false, ⟨none, none, none, 0⟩⟩
        true (0 + 1)).1).head? = some (EventK.launchK 0 true) :=
  ⟨rfl,
    (initialRun_only_gates_log allOkEnv
      ⟨true, true, false, ⟨none, none, none, 0⟩⟩ false true 0 rfl).2⟩

/-- C7 counterexample: a template with `initialRun = false` still fires a
`launch` on the very first event (the flag only suppresses a debug log
line; `updateConfig` and the `watch` ready handler trigger the run
unconditionally). -/
theorem initialRun_false_first_event_launches_cx :
    runTask allOkEnv ⟨false, true, false, ⟨none, none, none, 0⟩⟩ true 1 =
      ([Event.launch 0 0 true], RunResult.ok) := by decide

/-- The `ActiveTask` record (`types.ts`): `id`; `queued`; the state of its
`abortController` (`aborted`); and whether its `promise` has settled
(`resolved`). -/
structure ActiveTask where
  id : Nat
  queued : Bool
  aborted : Bool
  resolved : Bool
deriving DecidableEq, Repr

/-- The closure state of one `TaskManager`: `outerTeardownInitiated`,
`outerActiveTask`, `outerFirstEvent`. -/
structure ManagerState where
  outerTeardownInitiated : Bool
  outerActiveTask : Option ActiveTask
  outerFirstEvent : Bool
deriving DecidableEq, Repr

/-- The closure state at `TaskManager` construction time. -/
def initialManagerState : ManagerState :=
  { outerTeardownInitiated := false
    outerActiveTask := none
    outerFirstEvent := true }

/-- The record returned by `TaskManager(...)`.  Crucially, its
`activeTask` field is `activeTask: outerActiveTask`, a snapshot of the
closure variable taken when the record literal is evaluated — i.e. at
construction time, when `outerActiveTask` is still `null`.  Later
reassignments of the closure variable do not update this field. -/
structure ManagerRecord where
  activeTask : Option ActiveTask
deriving DecidableEq, Repr

/-- The record built by `TaskManager(...)`: `activeTask` is the
construction-time value of `outerActiveTask`, which is `null`. -/
def taskManagerRecord : ManagerRecord :=
  { activeTask := initialManagerState.outerActiveTask }

/-- Observable effects of the teardown paths: awaiting a stored task
promise (`await manager.activeTask?.promise` in the pool), calling
`abort()` on the active task's controller, and running the template's
`teardown` hook. -/
inductive PEvent
  | awaitTaskPromise (id : Nat)
  | abortActiveTask (id : Nat)
  | runTeardownHook
deriving DecidableEq, Repr

/-- The `teardown` closure of a `TaskManager` (source lines 319–350):
return immediately if `outerTeardownInitiated`; otherwise latch it, abort
the active task's controller if there is an active task, then run the
template's `teardown` hook (if defined), whose errors are logged and
swallowed. -/
def managerTeardown (hasHook : Bool) (s : ManagerState) :
    ManagerState × List PEvent :=
  if s.outerTeardownInitiated then (s, [])
  else
    let s1 : ManagerState := { s with outerTeardownInitiated := true }
    let abortStep : ManagerState × List PEvent :=
      match s1.outerActiveTask with
      | some a =>
        ({ s1 with outerActiveTask := some { a with aborted := true } },
          [.abortActiveTask a.id])
      | none => (s1, [])
    let hookEvents : List PEvent := if hasHook then [.runTeardownHook] else []
    (abortStep.1, abortStep.2 ++ hookEvents)

/-- One step of `ManagerPool.teardown` for one manager (source lines
358–365): `if (manager.activeTask?.promise) await it`, then
`await manager.teardown()`.  The awaited `activeTask` is the one stored
in the manager's returned record, not the closure variable. -/
def poolTeardownOne (hasHook : Bool) (m : ManagerRecord × ManagerState) :
    (ManagerRecord × ManagerState) × List PEvent :=
  let awaitEvents : List PEvent :=
    match m.1.activeTask with
    | some a => [.awaitTaskPromise a.id]
    | none => []
  let td := managerTeardown hasHook m.2
  ((m.1, td.1), awaitEvents ++ td.2)

/-- The pool teardown `ManagerPool.teardown`: iterate `poolTeardownOne` over the managers in
map order, concatenating the emitted effects. -/
def poolTeardown (hasHook : Bool) (ms : List (ManagerRecord × ManagerState)) :
    List (ManagerRecord × ManagerState) × List PEvent :=
  (ms.map fun m => (poolTeardownOne hasHook m).1,
    (ms.map fun m => (poolTeardownOne hasHook m).2).flatten)

/-- C1 (code bug): a pool holding one manager built by `TaskManager`
(so its record's `activeTask` field is the construction-time snapshot,
`null`) whose closure state has a running task (`id = 7`, promise
unresolved).  `ManagerPool.teardown` emits no `awaitTaskPromise` effect
at all: it proceeds straight to the manager's `teardown()` (abort + hook)
while the task's promise is still unresolved, because
`manager.activeTask` is permanently `null`. -/
theorem pool_teardown_skips_await_of_running_task :
    poolTeardown true
        [(taskManagerRecord,
          { outerTeardownInitiated := false
            outerActiveTask := some ⟨7, false, false, false⟩
            outerFirstEvent := false })] =
      ([(taskManagerRecord,
          { outerTeardownInitiated := true
            outerActiveTask := some ⟨7, false, true, false⟩
            outerFirstEvent := false })],
        [PEvent.abortActiveTask 7, PEvent.runTeardownHook]) ∧
    taskManagerRecord.activeTask = none ∧
    (poolTeardown true
        [(taskManagerRecord,
          { outerTeardownInitiated := false
            outerActiveTask := some ⟨7, false, false, false⟩
            outerFirstEvent := false })]).2.countP
      (fun e => match e with
        | PEvent.awaitTaskPromise _ => true
        | _ => false) = 0 := by
  refine ⟨by decide, by decide, by decide⟩

/-- C8 (confirmed), manager half and pool half.  Manager: a second
back-to-back `teardown()` finds `outerTeardownInitiated` latched, leaves
the state unchanged and emits no effect (no abort, no second run of the
template teardown hook).  Pool: a second back-to-back pool `teardown()`
likewise leaves every manager unchanged and emits no effect, for any pool
whose manager records were built by `TaskManager` (their `activeTask`
snapshot field is `null`). -/
theorem teardown_idempotent (hasHook : Bool) :
    (∀ s : ManagerState,
      managerTeardown hasHook (managerTeardown hasHook s).1 =
        ((managerTeardown hasHook s).1, [])) ∧
    (∀ ms : List (ManagerRecord × ManagerState),
      (∀ m ∈ ms, m.1.activeTask = none) →
      poolTeardown hasHook (poolTeardown hasHook ms).1 =
        ((poolTeardown hasHook ms).1, [])) := by
  have hmgr : ∀ s : ManagerState,
      managerTeardown hasHook (managerTeardown hasHook s).1 =
        ((managerTeardown hasHook s).1, []) := by
    intro s
    by_cases h : s.outerTeardownInitiated
    · simp [managerTeardown, h]
    · cases ha : s.outerActiveTask <;> simp [managerTeardown, h, ha]
  refine ⟨hmgr, fun ms => ?_⟩
  induction ms with
  | nil => intro _; rfl
  | cons m rest ih =>
    intro hnone
    have hm : m.1.activeTask = none := hnone m (List.mem_cons_self m rest)
    have ihx := ih fun x hx => hnone x (List.mem_cons_of_mem _ hx)
    have hhead1 : (poolTeardownOne hasHook (poolTeardownOne hasHook m).1).1 =
        (poolTeardownOne hasHook m).1 := by
      simp [poolTeardownOne, hmgr m.2]
    have hhead2 : (poolTeardownOne hasHook (poolTeardownOne hasHook m).1).2 =
        ([] : List PEvent) := by
      simp [poolTeardownOne, hm, hmgr m.2]
    have ih1 := congrArg Prod.fst ihx
    have ih2 := congrArg Prod.snd ihx
    simp only [poolTeardown, List.map_cons, List.flatten_cons] at ih1 ih2 ⊢
    simp [hhead1, hhead2, ih1, ih2]
    intro l x x1 hx hl
    rw [← hl]
    have hx1 : x.activeTask = none := hnone _ (List.mem_cons_of_mem _ hx)
    simp [poolTeardownOne, hx1, hmgr x1]

/-- Witness for `teardown_idempotent`: a one-manager pool with a running
task in the closure state. -/
theorem teardown_idempotent_witness :
    (∀ m ∈ [(taskManagerRecord,
        ({ outerTeardownInitiated := false
           outerActiveTask := some ⟨3, false, false, false⟩
           outerFirstEvent := false } : ManagerState))],
      m.1.activeTask = none) ∧
    poolTeardown true
        (poolTeardown true
          [(taskManagerRecord,
            { outerTeardownInitiated := false
              outerActiveTask := some ⟨3, false, false, false⟩
              outerFirstEvent := false })]).1 =
      ((poolTeardown true
          [(taskManagerRecord,
            { outerTeardownInitiated := false
              outerActiveTask := some ⟨3, false, false, false⟩
              outerFirstEvent := false })]).1, []) :=
  ⟨by decide,
    (teardown_idempotent true).2
      [(taskManagerRecord,
        { outerTeardownInitiated := false
          outerActiveTask := some ⟨3, false, false, false⟩
          outerFirstEvent := false })]
      (by decide)⟩

/-- Control classification of the synchronous phase of `updateConfig`
(everything up to its first `await` or early `return undefined`):
`returnImmediate` — the call returns `undefined` without awaiting and
without starting a task; `awaitDonePath` — the call has set `queued` and
proceeds to `await outerActiveTask.promise` (then to the teardown check
and a possible new task); `startPath` — there was no active task and the
call proceeds directly to the teardown check and a possible new task. -/
inductive UpdateAction
  | returnImmediate
  | awaitDonePath
  | startPath
deriving DecidableEq, Repr

/-- The synchronous phase of `TaskManager.updateConfig` (source lines
191–261): snapshot `outerFirstEvent` into the local `firstEvent` and
clear the latch; then, if there is an active task: in the interruptible
branch abort its controller and either return `undefined` (if `queued`
is already set) or set `queued` and go await the task's promise; in the
non-interruptible branch return `undefined` if the template is
persistent, else either return `undefined` (if `queued` is already set)
or set `queued` and go await.  Returns the new closure state, the local
`firstEvent` snapshot, and the control classification.  (The source's
`throw` when the active task has no abort controller is unreachable
here: every modelled record has a controller.) -/
def updateConfigSyncPhase (interruptible persistent : Bool)
    (s : ManagerState) : ManagerState × Bool × UpdateAction :=
  let firstEvent := s.outerFirstEvent
  let s0 : ManagerState := { s with outerFirstEvent := false }
  match s0.outerActiveTask with
  | none => (s0, firstEvent, .startPath)
  | some a =>
    if interruptible then
      let a1 : ActiveTask := { a with aborted := true }
      if a1.queued then
        ({ s0 with outerActiveTask := some a1 }, firstEvent, .returnImmediate)
      else
        ({ s0 with outerActiveTask := some { a1 with queued := true } },
          firstEvent, .awaitDonePath)
    else
      if persistent then (s0, firstEvent, .returnImmediate)
      else if a.queued then (s0, firstEvent, .returnImmediate)
      else
        ({ s0 with outerActiveTask := some { a with queued := true } },
          firstEvent, .awaitDonePath)

/-- C4 (confirmed): while the active task's `queued` flag is true, every
further `updateConfig` call returns immediately — it does not await the
active task, does not start a task, and changes no manager state other
than consuming the `outerFirstEvent` latch — in both the interruptible
and the non-interruptible branch.  (In reachable interruptible states a
queued task is already aborted, since the updater that set `queued`
called `abort()` first; that is the `hab` hypothesis.)  Consequently at
most one updater ever sets `queued` per active-task record: the flag is
only set on the `awaitDonePath`, which is taken only when `queued` was
false. -/
theorem queued_updateConfig_noop (interruptible persistent : Bool)
    (s : ManagerState) (a : ActiveTask)
    (hact : s.outerActiveTask = some a)
    (hq : a.queued = true)
    (hab : interruptible = true → a.aborted = true) :
    updateConfigSyncPhase interruptible persistent s =
      ({ s with outerFirstEvent := false }, s.outerFirstEvent,
        UpdateAction.returnImmediate) := by
  obtain ⟨ti, act, fe⟩ := s
  obtain rfl : act = some a := hact
  by_cases hi : interruptible
  · have hab2 : a.aborted = true := hab hi
    obtain ⟨j, q, ab, rs⟩ := a
    obtain rfl : q = true := hq
    obtain rfl : ab = true := hab2
    simp [updateConfigSyncPhase, hi]
  · by_cases hp : persistent
    · simp [updateConfigSyncPhase, hi, hp]
    · simp [updateConfigSyncPhase, hi, hp, hq]

/-- Witness for `queued_updateConfig_noop`: an interruptible manager with
a queued (and already aborted) active task and an unconsumed
`outerFirstEvent` latch. -/
theorem queued_updateConfig_noop_witness :
    (({ outerTeardownInitiated := false
        outerActiveTask := some ⟨5, true, true, false⟩
        outerFirstEvent := true } : ManagerState).outerActiveTask =
        some ⟨5, true, true, false⟩ ∧
      (⟨5, true, true, false⟩ : ActiveTask).queued = true ∧
      (true = true → (⟨5, true, true, false⟩ : ActiveTask).aborted = true)) ∧
    updateConfigSyncPhase true false
        { outerTeardownInitiated := false
          outerActiveTask := some ⟨5, true, true, false⟩
          outerFirstEvent := true } =
      ({ outerTeardownInitiated := false
         outerActiveTask := some ⟨5, true, true, false⟩
         outerFirstEvent := false }, true, UpdateAction.returnImmediate) :=
  ⟨⟨rfl, rfl, fun _ => rfl⟩,
    queued_updateConfig_noop true false
      { outerTeardownInitiated := false
        outerActiveTask := some ⟨5, true, true, false⟩
        outerFirstEvent := true }
      ⟨5, true, true, false⟩ rfl rfl (fun _ => rfl)⟩

/-- Reading a JavaScript array at an index beyond its length yields
`undefined` (`none`). -/
theorem getD_none_of_le {α : Type} :
    ∀ (l : List (Option α)) (i : ℕ), l.length ≤ i → l.getD i none = none := by
  intro l
  induction l with
  | nil => intro i _; cases i <;> rfl
  | cons x xs ihl =>
    intro i h
    cases i with
    | zero => simp at h
    | succ i =>
      rw [List.getD_cons_succ]
      exact ihl i (by simpa using h)

/-- Reading a JavaScript array within range yields one of its entries. -/
theorem getD_mem_of_lt {α : Type} :
    ∀ (l : List (Option α)) (i : ℕ), i < l.length → l.getD i none ∈ l := by
  intro l
  induction l with
  | nil => intro i h; simp at h
  | cons x xs ihl =>
    intro i h
    cases i with
    | zero => simp [List.getD_cons_zero]
    | succ i =>
      rw [List.getD_cons_succ]
      exact List.mem_cons_of_mem x (ihl i (by simpa using h))

/-- One index step of the reconciliation loop in `ManagerPool.trigger`
(source lines 366–394), projected onto the key set of the `managers`
map: if `data[i]` is `undefined` the manager at `i` (if any) is torn
down and deleted from the map; otherwise the manager at `i` receives
`updateConfig`, or a fresh manager is created and inserted at `i` when
none exists.  `data` is a JavaScript array, so a hole or an out-of-range
read is `undefined` (`none`). -/
def triggerStep {α : Type} (data : List (Option α)) (ks : Finset ℕ)
    (i : ℕ) : Finset ℕ :=
  if (data.getD i none).isSome then insert i ks else ks.erase i

/-- The key set of the `managers` map after one `trigger([config, data])`
call on a pool whose map currently holds the keys `ks`: the loop runs
`i = 0, …, maxLength - 1` with
`maxLength = Math.max(data.length, managers.size)` computed once, from
the size of the map before the loop. -/
def triggerKeys {α : Type} (ks : Finset ℕ) (data : List (Option α)) :
    Finset ℕ :=
  (List.range (max data.length ks.card)).foldl (triggerStep data) ks

/-- Membership after folding the reconciliation step over `0, …, N-1`:
an index below the bound is present exactly when its entry is defined;
an index at or above the bound keeps its previous membership. -/
theorem mem_triggerFold {α : Type} (data : List (Option α)) :
    ∀ (N : ℕ) (ks : Finset ℕ) (j : ℕ),
      (j ∈ (List.range N).foldl (triggerStep data) ks) ↔
        (if j < N then (data.getD j none).isSome = true else j ∈ ks) := by
  intro N
  induction N with
  | zero => intro ks j; simp
  | succ N ihN =>
    intro ks j
    rw [List.range_succ, List.foldl_append, List.foldl_cons, List.foldl_nil,
      triggerStep]
    by_cases hd : (data.getD N none).isSome
    · rw [if_pos hd, Finset.mem_insert]
      by_cases hj : j = N
      · subst hj
        rw [if_pos (Nat.lt_succ_self j)]
        exact ⟨fun _ => hd, fun _ => Or.inl rfl⟩
      · simp only [hj, false_or]
        rw [ihN ks j]
        by_cases hlt : j < N
        · rw [if_pos hlt, if_pos (by omega : j < N + 1)]
        · rw [if_neg hlt, if_neg (by omega : ¬j < N + 1)]
    · rw [if_neg hd, Finset.mem_erase]
      by_cases hj : j = N
      · subst hj
        rw [if_pos (Nat.lt_succ_self j)]
        exact ⟨fun h => absurd rfl h.1, fun h => absurd h hd⟩
      · simp only [ne_eq, hj, not_false_eq_true, true_and]
        rw [ihN ks j]
        by_cases hlt : j < N
        · rw [if_pos hlt, if_pos (by omega : j < N + 1)]
        · rw [if_neg hlt, if_neg (by omega : ¬j < N + 1)]

/-- C5 amended (the claim as written is refuted by
`trigger_invariant_fails_on_holes_cx`): when every entry of `data[]` is
defined (no `undefined` holes), a `trigger` call carries the invariant:
starting from a key set of the invariant shape `{0, …, m-1}` (as left by
any previous hole-free trigger, or `∅ = {0, …, -1}` initially), the
managers map afterwards holds exactly the indices `0, …, data.length-1`,
i.e. exactly the indices at which `data[]` has a defined entry —
including when `data[]` shrinks.  With holes the invariant fails: the
`max(data.length, managers.size)` bound can miss high indices. -/
theorem trigger_invariant_holefree {α : Type} (m : ℕ)
    (data : List (Option α)) (hfull : ∀ x ∈ data, x.isSome = true) :
    triggerKeys (Finset.range m) data = Finset.range data.length := by
  ext j
  rw [triggerKeys, mem_triggerFold, Finset.card_range, Finset.mem_range]
  by_cases hj : j < data.length
  · have h1 : j < max data.length m := by omega
    have h2 : (data.getD j none).isSome = true :=
      hfull _ (getD_mem_of_lt data j hj)
    rw [if_pos h1]
    exact iff_of_true h2 (Finset.mem_range.mpr hj)
  · by_cases h2 : j < max data.length m
    · have h3 : data.getD j none = none := getD_none_of_le data j (by omega)
      rw [if_pos h2, h3]
      exact iff_of_false (by simp) (by simpa using hj)
    · have h4 : ¬j < m := by omega
      rw [if_neg h2, Finset.mem_range]
      exact iff_of_false h4 (by simpa using hj)

/-- Witness for `trigger_invariant_holefree`: the pool shrinks from
`{0, 1, 2}` to `{0}` when hole-free data of length 1 arrives. -/
theorem trigger_invariant_holefree_witness :
    (∀ x ∈ [some 7], Option.isSome x = true) ∧
    triggerKeys (Finset.range 3) [some (7 : ℕ)] = Finset.range 1 :=
  ⟨by decide, trigger_invariant_holefree 3 [some 7] (by decide)⟩

/-- C5 counterexample: `trigger` with `data = [x, hole, x]` leaves keys
`{0, 2}` (size 2); a subsequent `trigger` with `data = []` only scans
`i < max(0, 2) = 2`, so the manager at index 2 survives even though the
most recent `data[]` has no defined entry at 2: the managers map is
`{2}`, not `∅`. -/
theorem trigger_invariant_fails_on_holes_cx :
    triggerKeys (triggerKeys (∅ : Finset ℕ) [some 0, none, some 0])
        ([] : List (Option ℕ)) = {2} ∧
    ({2} : Finset ℕ) ≠ ∅ := by decide

/-- The file-watching backends exported by the package; `TurboWatcher` is
the default. -/
inductive WatcherKind
  | TurboWatcher
  | ChokidarWatcher
  | FSWatcher
deriving DecidableEq, Repr

/-- Model of `TaskTemplateInput` (`mod/types.ts`): the user-facing template with
optional flags.  The `launch` and `teardown` handlers are abstracted as
opaque identifiers. -/
structure TaskTemplateInputM where
  initialRun : Option Bool
  interruptible : Option Bool
  name : String
  launch : Nat
  teardown : Option Nat
  persistent : Option Bool
  retry : Option Retry
  throttleOutput : Option Int
deriving DecidableEq, Repr

/-- Model of `EirenewatchConfigurationInput` (`mod/types.ts`): `Watcher`,
`abortController`, `onAfterEmit`, `cwd` and `debounce` are optional
(`none` models an absent property); `abortController` is abstracted as
an opaque identifier and `debounce` as its `wait` value. -/
structure EirenewatchConfigurationInput (Config Data : Type) where
  Watcher : Option WatcherKind
  abortController : Option Nat
  configPath : String
  parseConfig : String → Config
  parseProcessData : Config → List Data
  onAfterEmit : Option (Config → List Data → Unit)
  cwd : Option String
  debounce : Option Int
  task : TaskTemplateInputM

/-- The function `defineConfigWatcher` (`src/mod/defineConfigWatcher.ts`):
`{ Watcher: TurboWatcher, ...configurationInput }` — every property of
the input is kept; the `Watcher` default applies only when the input has
no `Watcher` property. -/
def defineConfigWatcher {Config Data : Type}
    (configurationInput : EirenewatchConfigurationInput Config Data) :
    EirenewatchConfigurationInput Config Data :=
  { configurationInput with
      Watcher :=
        match configurationInput.Watcher with
        | some w => some w
        | none => some WatcherKind.TurboWatcher }

/-- C10 (confirmed): `defineConfigWatcher(input)` returns a configuration
whose every field equals the corresponding field of `input`, except that
`Watcher` is set to `TurboWatcher` when `input` does not define it; when
`input` defines `Watcher`, the input's value is kept. -/
theorem defineConfigWatcher_fields {Config Data : Type}
    (input : EirenewatchConfigurationInput Config Data) :
    (defineConfigWatcher input).Watcher =
        some (input.Watcher.getD WatcherKind.TurboWatcher) ∧
    (defineConfigWatcher input).abortController = input.abortController ∧
    (defineConfigWatcher input).configPath = input.configPath ∧
    (defineConfigWatcher input).parseConfig = input.parseConfig ∧
    (defineConfigWatcher input).parseProcessData = input.parseProcessData ∧
    (defineConfigWatcher input).onAfterEmit = input.onAfterEmit ∧
    (defineConfigWatcher input).cwd = input.cwd ∧
    (defineConfigWatcher input).debounce = input.debounce ∧
    (defineConfigWatcher input).task = input.task := by
  refine ⟨?_, rfl, rfl, rfl, rfl, rfl, rfl, rfl, rfl⟩
  cases h : input.Watcher <;> simp [defineConfigWatcher, h]
